import Mathlib

/-!
Verification of the desk-butler-proxy command safety pipeline (`src/app.py`).

The embedding mirrors the `brain` endpoint of `app.py`:
* JSON-like values produced by `json.loads` are modelled by `JVal`
  (JSON objects do not occur in the claims and are omitted; Python's
  non-finite floats are outside the rational-number model).
* Python's `float(x)` / `int(x)` coercions are modelled by `pyFloat` /
  `pyInt`; they succeed on numbers and booleans and raise (`Except.error`)
  on `None` and lists.  Python also coerces numeric string literals, but
  the oracle's JSON schema only ever produces the six tag strings, none of
  which is numeric, so strings are modelled as non-coercible.
* `int` applied to a float truncates toward zero: `pytrunc`.
* The validation loop of `brain` (app.py lines 114-135) is `validate`;
  an `Except.error ()` result models an uncaught Python exception escaping
  the loop (the loop runs outside the `try` block of lines 89-112).
* The endpoint logic (lines 82-112) is `brainBody` / `brain` / `brainM`;
  the snapshot store `LATEST` is a function from robot id to optional
  entry, threaded through the small state monad `StoreM` so that reads
  and writes of the store are explicit.
-/

namespace DeskButler

/-- JSON-like values as produced by `json.loads` in `app.py`. -/
inductive JVal where
  | null : JVal
  | bool : Bool → JVal
  | num : ℚ → JVal
  | str : String → JVal
  | arr : List JVal → JVal

/-- Python truthiness (`if not c: continue`, app.py line 118):
`None`, `False`, `0`, `""` and `[]` are falsy. -/
def pyTruthy : JVal → Bool
  | .null => false
  | .bool b => b
  | .num q => q ≠ 0
  | .str s => s ≠ ""
  | .arr l => !l.isEmpty

/-- Python `==` between a JSON value and a string tag (app.py lines
120, 129, 131, 133): only equal strings compare equal. -/
def pyEqStr : JVal → String → Bool
  | .str t, s => t == s
  | _, _ => false

/-- `int` applied to a rational truncates toward zero, like Python
`int(float)`: the numerator is divided by the denominator rounding
toward zero. -/
def pytrunc (q : ℚ) : ℤ := Int.tdiv q.num (q.den : ℤ)

/-- Python `float(x)` on a JSON value: numbers and booleans coerce,
`None` and lists raise `TypeError`.  (Numeric string literals also
coerce in Python; the schema's strings are the six non-numeric tags,
so strings are modelled as raising.) -/
def pyFloat : JVal → Except Unit ℚ
  | .num q => .ok q
  | .bool b => .ok (if b then 1 else 0)
  | _ => .error ()

/-- Python `int(x)` on a JSON value, truncating floats toward zero. -/
def pyInt : JVal → Except Unit ℤ
  | .num q => .ok (pytrunc q)
  | .bool b => .ok (if b then 1 else 0)
  | _ => .error ()

/-- `def clip(v, lo, hi): return max(lo, min(hi, v))` (app.py

lines 114-115). -/
def clip (v lo hi : ℚ) : ℚ := max lo (min hi v)

/-- The tag-dispatch chain of the validation loop (app.py lines 119-134),
for a command tuple `op :: rest`.  In the source each `elif` guard also
checks the arity (`len(c) == 7`, `len(c) == 2`); since a given `op`
matches at most one tag, a tag match with the wrong arity falls through
every branch and is discarded, which is what the wildcard arms encode. -/
def valArr (op : JVal) (rest : List JVal) : Except Unit (Option (List JVal)) :=
  if pyEqStr op "MOVE" then
    match rest with
    | [a0, a1, a2, a3, g, T] => do
      let x0 := clip (← pyFloat a0) (-150) 150
      let x1 := clip (← pyFloat a1) (-10) 120
      let x2 := clip (← pyFloat a2) 0 130
      let x3 := clip (← pyFloat a3) (-90) 90
      let gi ← pyInt g
      let ti ← pyInt T
      pure (some [.str "MOVE", .num x0, .num x1, .num x2, .num x3,
        .num ((if gi = 0 then (0 : ℤ) else 1) : ℚ),
        .num ((max 1000 (min 20000 ti) : ℤ) : ℚ)])
    | _ => .ok none
  else if pyEqStr op "HOME" || pyEqStr op "STOP" || pyEqStr op "STATUS" then
    .ok (some [op])
  else if pyEqStr op "GRIP" then
    match rest with
    | [s] => do
      let si ← pyInt s
      pure (some [.str "GRIP", .num ((if si = 0 then (0 : ℤ) else 1) : ℚ)])
    | _ => .ok none
  else if pyEqStr op "WAIT" then
    match rest with
    | [d] => do
      let di ← pyInt d
      pure (some [.str "WAIT", .num ((max 0 (min 5000 di) : ℤ) : ℚ)])
    | _ => .ok none
  else .ok none

/-- One iteration of the validation loop (app.py lines 117-134) on a raw
command `c`: `.ok none` is `continue`/fall-through (the command is
discarded), `.ok (some cmd)` appends `cmd` to `safe`, `.error ()` is an
uncaught exception.  A falsy `c` is skipped; a non-empty string `c` has
`c[0]` equal to its one-character first element, which matches none of
the four-letter-or-longer tags, so every branch falls through; `c[0]` on
a number or boolean raises `TypeError`. -/
def valCmd (c : JVal) : Except Unit (Option (List JVal)) :=
  if pyTruthy c then
    match c with
    | .arr (op :: rest) => valArr op rest
    | .arr [] => .ok none
    | .str _ => .ok none
    | _ => .error ()
  else .ok none

/-- The whole validation loop (app.py lines 116-134): left-to-right over
the raw `cmds`, collecting the surviving commands into `safe`; the first
uncaught exception aborts the request. -/
def validate : List JVal → Except Unit (List (List JVal))
  | [] => .ok []
  | c :: rest => do
    let o ← valCmd c
    let tail ← validate rest
    pure (match o with
      | none => tail
      | some cmd => cmd :: tail)

/-- A snapshot entry of `LATEST` (app.py line 79):
`{"b64": ..., "ts": ..., "mime": ...}`. -/
structure Entry where
  b64 : String
  ts : ℚ
  mime : String

/-- The snapshot store `LATEST` (app.py line 18), keyed by robot id. -/
def Store : Type := String → Option Entry

/-- A state-monad computation over the snapshot store. -/
def StoreM (α : Type) : Type := Store → α × Store

/-- `LATEST.get(robot_id)` (app.py line 85). -/
def readEntry (rid : String) : StoreM (Option Entry) := fun s => (s rid, s)

/-- `LATEST[robot_id] = {...}` (app.py line 79). -/
def writeEntry (rid : String) (e : Entry) : StoreM Unit :=
  fun s => ((), fun k => if k = rid then some e else s k)

/-- The JSON body returned by the `brain` endpoint: `cmds` is always
present; `error` models the optional `"error"` field of line 112. -/
structure BrainResponse where
  cmds : List (List JVal)
  error : Option String

/-- The `brain` endpoint after the store read (app.py lines 86-135).
`oracle` is the outcome of the `try` block of lines 89-110: either a
diagnostic string `str(e)` from any exception raised by the oracle call
or the parsing of its response, or the extracted `cmds` list.  An
`Except.error ()` result models an exception escaping the handler (the
validation loop is not protected by any `try`). -/
def brainBody (entry : Option Entry) (now : ℚ)
    (oracle : Except String (List JVal)) : Except Unit BrainResponse :=
  match entry with
  | none => .ok ⟨[], none⟩
  | some e =>
    if now - e.ts > 60 then .ok ⟨[], none⟩
    else
      match oracle with
      | .error msg => .ok ⟨[], some msg⟩
      | .ok cmds =>
        match validate cmds with
        | .error _ => .error ()
        | .ok safe => .ok ⟨safe, none⟩

/-- The `brain` endpoint (app.py lines 82-135) as a store computation:
it performs exactly one store operation, the read of line 85. -/
def brainM (rid : String) (now : ℚ)
    (oracle : Except String (List JVal)) : StoreM (Except Unit BrainResponse) :=
  fun s =>
    let p := readEntry rid s
    (brainBody p.1 now oracle, p.2)

/-- The `brain` endpoint's response for a given store. -/
def brain (store : Store) (rid : String) (now : ℚ)
    (oracle : Except String (List JVal)) : Except Unit BrainResponse :=
  (brainM rid now oracle store).1

/-- The `upload` endpoint (app.py lines 70-80): content-type and size
checks, then a store write; `.error n` models `HTTPException(n, ...)`.
The base64 payload and its length are taken as inputs (encoding is not
modelled). -/
def upload (rid : String) (mime : String) (rawLen : ℕ) (b64 : String)
    (now : ℚ) : StoreM (Except ℕ Bool) :=
  fun s =>
    if mime ≠ "image/jpeg" ∧ mime ≠ "image/jpg" ∧ mime ≠ "image/png" then
      (.error 415, s)
    else if rawLen > 1500000 then (.error 413, s)
    else
      let p := writeEntry rid ⟨b64, now, mime⟩ s
      (.ok true, p.2)

/-! ## Helper lemmas -/

theorem exbind_ok {α β : Type} {x : Except Unit α} {f : α → Except Unit β} {b : β} :
    x >>= f = .ok b ↔ ∃ a, x = .ok a ∧ f a = .ok b := by
  cases x with
  | error u => simp [show (Except.error u >>= f : Except Unit β) = .error u from rfl]
  | ok a => simp [show (Except.ok a >>= f : Except Unit β) = f a from rfl]

theorem expure_eq_ok {α : Type} {a b : α} :
    (pure a : Except Unit α) = .ok b ↔ a = b := by
  simp [show (pure a : Except Unit α) = .ok a from rfl]

theorem pyEqStr_true {v : JVal} {s : String} (h : pyEqStr v s = true) : v = .str s := by
  cases v <;> simp [pyEqStr] at h
  simp [h]

theorem pytrunc_intCast (n : ℤ) : pytrunc (n : ℚ) = n := by
  simp [pytrunc, Rat.num_intCast, Rat.den_intCast]

theorem le_clip (v lo hi : ℚ) : lo ≤ clip v lo hi := le_max_left _ _

theorem clip_le {v lo hi : ℚ} (h : lo ≤ hi) : clip v lo hi ≤ hi :=
  max_le h (min_le_left _ _)

theorem clip_of_mem {v lo hi : ℚ} (h1 : lo ≤ v) (h2 : v ≤ hi) : clip v lo hi = v := by
  unfold clip
  rw [min_eq_right h2, max_eq_right h1]

theorem valCmd_arr (op : JVal) (rest : List JVal) :
    valCmd (.arr (op :: rest)) = valArr op rest := by
  simp [valCmd, pyTruthy]

/-- Everything `valArr` can emit: a fully-clamped `MOVE`, a bare
`HOME`/`STOP`/`STATUS`, a binary `GRIP`, or a clamped `WAIT`. -/
def CmdShape (e : List JVal) : Prop :=
  (∃ (x0 x1 x2 x3 : ℚ) (g t : ℤ),
      e = [.str "MOVE", .num x0, .num x1, .num x2, .num x3, .num (g : ℚ), .num (t : ℚ)] ∧
      -150 ≤ x0 ∧ x0 ≤ 150 ∧ -10 ≤ x1 ∧ x1 ≤ 120 ∧ 0 ≤ x2 ∧ x2 ≤ 130 ∧
      -90 ≤ x3 ∧ x3 ≤ 90 ∧ (g = 0 ∨ g = 1) ∧ 1000 ≤ t ∧ t ≤ 20000) ∨
  e = [.str "HOME"] ∨ e = [.str "STOP"] ∨ e = [.str "STATUS"] ∨
  (∃ g : ℤ, (g = 0 ∨ g = 1) ∧ e = [.str "GRIP", .num (g : ℚ)]) ∨
  (∃ d : ℤ, 0 ≤ d ∧ d ≤ 5000 ∧ e = [.str "WAIT", .num (d : ℚ)])

theorem valArr_sound {op : JVal} {rest : List JVal} {e : List JVal}
    (h : valArr op rest = .ok (some e)) : CmdShape e := by
  unfold valArr at h
  split_ifs at h with hmv hhss hgr hwt
  · -- MOVE branch
    rcases rest with _ | ⟨a0, _ | ⟨a1, _ | ⟨a2, _ | ⟨a3, _ | ⟨g, _ | ⟨T, _ | ⟨x, xs⟩⟩⟩⟩⟩⟩⟩ <;>
      simp only [exbind_ok, expure_eq_ok, Option.some.injEq] at h
    · exact absurd h (by simp)
    · exact absurd h (by simp)
    · exact absurd h (by simp)
    · exact absurd h (by simp)
    · exact absurd h (by simp)
    · exact absurd h (by simp)
    · obtain ⟨v0, hv0, v1, hv1, v2, hv2, v3, hv3, gi, hgi, ti, hti, he⟩ := h
      subst he
      refine Or.inl ⟨clip v0 (-150) 150, clip v1 (-10) 120, clip v2 0 130, clip v3 (-90) 90,
        (if gi = 0 then (0 : ℤ) else 1), max 1000 (min 20000 ti),
        ?_, le_clip .., clip_le (by norm_num), le_clip .., clip_le (by norm_num),
        le_clip .., clip_le (by norm_num), le_clip .., clip_le (by norm_num),
        ?_, le_max_left .., max_le (by norm_num) (min_le_left ..)⟩
      · split_ifs <;> simp
      · split_ifs <;> simp
    · exact absurd h (by simp)
  · -- HOME / STOP / STATUS branch
    simp only [Except.ok.injEq, Option.some.injEq] at h
    rcases Bool.or_eq_true_iff.mp hhss with h1 | h1
    · rcases Bool.or_eq_true_iff.mp h1 with h2 | h2
      · exact Or.inr (Or.inl (by rw [← h, pyEqStr_true h2]))
      · exact Or.inr (Or.inr (Or.inl (by rw [← h, pyEqStr_true h2])))
    · exact Or.inr (Or.inr (Or.inr (Or.inl (by rw [← h, pyEqStr_true h1]))))
  · -- GRIP branch
    rcases rest with _ | ⟨s, _ | ⟨x, xs⟩⟩ <;>
      simp only [exbind_ok, expure_eq_ok, Option.some.injEq] at h
    · exact absurd h (by simp)
    · obtain ⟨si, hsi, he⟩ := h
      subst he
      refine Or.inr (Or.inr (Or.inr (Or.inr (Or.inl
        ⟨(if si = 0 then (0 : ℤ) else 1), ?_, ?_⟩))))
      · split_ifs <;> simp
      · split_ifs <;> simp
    · exact absurd h (by simp)
  · -- WAIT branch
    rcases rest with _ | ⟨d, _ | ⟨x, xs⟩⟩ <;>
      simp only [exbind_ok, expure_eq_ok, Option.some.injEq] at h
    · exact absurd h (by simp)
    · obtain ⟨di, hdi, he⟩ := h
      exact Or.inr (Or.inr (Or.inr (Or.inr (Or.inr
        ⟨max 0 (min 5000 di), le_max_left .., max_le (by norm_num) (min_le_left ..),
          he.symm⟩))))
    · exact absurd h (by simp)
  · exact absurd h (by simp)

theorem valCmd_sound {c : JVal} {e : List JVal}
    (h : valCmd c = .ok (some e)) : CmdShape e := by
  unfold valCmd at h
  split_ifs at h with ht
  · cases c with
    | arr l =>
      cases l with
      | nil => exact absurd h (by simp)
      | cons op rest => exact valArr_sound h
    | null => exact absurd h (by simp)
    | bool b => exact absurd h (by simp)
    | num q => exact absurd h (by simp)
    | str s => exact absurd h (by simp)
  · exact absurd h (by simp)

/-- The surviving image of one raw command: `some` of the validated
command, or `none` when the command is discarded (an exception also
yields `none`, but then `validate` as a whole errors). -/
def stepv (c : JVal) : Option (List JVal) := ((valCmd c).toOption).join

theorem stepv_of_ok {c : JVal} {o : Option (List JVal)} (h : valCmd c = .ok o) :
    stepv c = o := by
  simp [stepv, h, Except.toOption]

theorem validate_ok_filterMap {cmds : List JVal} {out : List (List JVal)}
    (h : validate cmds = .ok out) : out = cmds.filterMap stepv := by
  induction cmds generalizing out with
  | nil =>
    simp only [validate, Except.ok.injEq] at h
    simp [← h]
  | cons c rest ih =>
    simp only [validate, exbind_ok, expure_eq_ok] at h
    obtain ⟨o, ho, tail, htail, hout⟩ := h
    rw [List.filterMap_cons, stepv_of_ok ho]
    cases o with
    | none => simpa [← hout] using ih htail
    | some cmd => simp [← hout, ih htail]

theorem mem_validate_ok {cmds : List JVal} {out : List (List JVal)} {e : List JVal}
    (h : validate cmds = .ok out) (he : e ∈ out) :
    ∃ c, valCmd c = .ok (some e) := by
  rw [validate_ok_filterMap h] at he
  obtain ⟨c, -, hc⟩ := List.mem_filterMap.mp he
  refine ⟨c, ?_⟩
  cases hval : valCmd c with
  | error u => simp [stepv, hval, Except.toOption] at hc
  | ok o =>
    cases o with
    | none => simp [stepv, hval, Except.toOption] at hc
    | some cmd => simpa [stepv_of_ok hval] using congrArg Option.some hc

theorem pytrunc_zero : pytrunc 0 = 0 := rfl

theorem pytrunc_one : pytrunc 1 = 1 := rfl

theorem exbind_ok_left {α β : Type} (a : α) (f : α → Except Unit β) :
    (Except.ok a >>= f : Except Unit β) = f a := rfl

theorem expure_def {α : Type} (a : α) : (pure a : Except Unit α) = .ok a := rfl

/-- Re-validating a command that `valCmd` emitted reproduces it unchanged:
every clamp and coercion is idempotent on the already-clamped fields. -/
theorem valCmd_reencode {c : JVal} {e : List JVal}
    (h : valCmd c = .ok (some e)) : valCmd (.arr e) = .ok (some e) := by
  rcases valCmd_sound h with
    ⟨x0, x1, x2, x3, g, t, rfl, h0a, h0b, h1a, h1b, h2a, h2b, h3a, h3b, hg, hta, htb⟩
    | rfl | rfl | rfl | ⟨g, hg, rfl⟩ | ⟨d, hd0, hd1, rfl⟩
  · rw [valCmd_arr]
    have hta' : (1000 : ℚ) ≤ (t : ℚ) := by exact_mod_cast hta
    have htb' : ((t : ℚ)) ≤ 20000 := by exact_mod_cast htb
    rcases hg with rfl | rfl <;>
      simp [valArr, pyEqStr, pyFloat, pyInt, pytrunc_intCast, exbind_ok_left, expure_def,
        clip_of_mem h0a h0b, clip_of_mem h1a h1b, clip_of_mem h2a h2b, clip_of_mem h3a h3b,
        min_eq_right htb, max_eq_right hta, min_eq_right htb', max_eq_right hta',
        pytrunc_zero, pytrunc_one]
  · rfl
  · rfl
  · rfl
  · rw [valCmd_arr]
    rcases hg with rfl | rfl <;>
      simp [valArr, pyEqStr, pyInt, pytrunc_intCast, exbind_ok_left, expure_def,
        pytrunc_zero, pytrunc_one]
  · rw [valCmd_arr]
    have hd0' : (0 : ℚ) ≤ (d : ℚ) := by exact_mod_cast hd0
    have hd1' : ((d : ℚ)) ≤ 5000 := by exact_mod_cast hd1
    simp [valArr, pyEqStr, pyInt, pytrunc_intCast, exbind_ok_left, expure_def,
      min_eq_right hd1, max_eq_right hd0, min_eq_right hd1', max_eq_right hd0']

theorem validate_reencode {cmds : List JVal} {out : List (List JVal)}
    (h : validate cmds = .ok out) : validate (out.map JVal.arr) = .ok out := by
  induction cmds generalizing out with
  | nil =>
    simp only [validate, Except.ok.injEq] at h
    simp [← h, validate]
  | cons c rest ih =>
    simp only [validate, exbind_ok, expure_eq_ok] at h
    obtain ⟨o, ho, tail, htail, hout⟩ := h
    cases o with
    | none => rw [← hout]; exact ih htail
    | some cmd =>
      rw [← hout]
      simp only [List.map_cons, validate, exbind_ok, expure_eq_ok]
      exact ⟨some cmd, valCmd_reencode ho, tail, ih htail, rfl⟩

/-! ## Claim-facing predicates -/

/-- A `MOVE` output command whose angular fields lie in the Limit Table
intervals, whose gripper state is the integer 0 or 1, and whose duration
is an integer in `[1000, 20000]`. -/
def moveWithinLimits (e : List JVal) : Prop :=
  ∃ (x0 x1 x2 x3 : ℚ) (g t : ℤ),
    e = [.str "MOVE", .num x0, .num x1, .num x2, .num x3, .num (g : ℚ), .num (t : ℚ)] ∧
    -150 ≤ x0 ∧ x0 ≤ 150 ∧ -10 ≤ x1 ∧ x1 ≤ 120 ∧ 0 ≤ x2 ∧ x2 ≤ 130 ∧
    -90 ≤ x3 ∧ x3 ≤ 90 ∧ (g = 0 ∨ g = 1) ∧ 1000 ≤ t ∧ t ≤ 20000

/-- A `WAIT` output command whose duration is an integer in `[0, 5000]`. -/
def waitWithinLimits (e : List JVal) : Prop :=
  ∃ d : ℤ, e = [.str "WAIT", .num (d : ℚ)] ∧ 0 ≤ d ∧ d ≤ 5000

/-- A structurally well-formed output command: recognized tag and the
declared arity for that tag. -/
def wellFormedCmd (e : List JVal) : Prop :=
  (e.head? = some (.str "MOVE") ∧ e.length = 7) ∨
  (e.head? = some (.str "GRIP") ∧ e.length = 2) ∨
  (e.head? = some (.str "WAIT") ∧ e.length = 2) ∨
  (e.head? = some (.str "HOME") ∧ e.length = 1) ∨
  (e.head? = some (.str "STOP") ∧ e.length = 1) ∨
  (e.head? = some (.str "STATUS") ∧ e.length = 1)

/-! ## Claims -/

/-- C1: for every raw plan input, every command in the validator's output
satisfies its declared bounds: in every MOVE command the base, shoulder,
elbow and wrist fields lie within `[-150,150]`, `[-10,120]`, `[0,130]`,
`[-90,90]` respectively, the gripper state is 0 or 1, and the duration is
an integer in `[1000,20000]`; in every WAIT command the duration is an
integer in `[0,5000]`. -/
theorem validate_output_within_limits (cmds : List JVal) (out : List (List JVal))
    (h : validate cmds = .ok out) (e : List JVal) (he : e ∈ out) :
    (e.head? = some (.str "MOVE") → moveWithinLimits e) ∧
    (e.head? = some (.str "WAIT") → waitWithinLimits e) := by
  obtain ⟨c, hc⟩ := mem_validate_ok h he
  rcases valCmd_sound hc with
    ⟨x0, x1, x2, x3, g, t, rfl, h0a, h0b, h1a, h1b, h2a, h2b, h3a, h3b, hg, hta, htb⟩
    | rfl | rfl | rfl | ⟨g, hg, rfl⟩ | ⟨d, hd0, hd1, rfl⟩
  · exact ⟨fun _ => ⟨x0, x1, x2, x3, g, t, rfl, h0a, h0b, h1a, h1b, h2a, h2b, h3a, h3b,
      hg, hta, htb⟩, fun hw => by simp at hw⟩
  · exact ⟨fun hm => by simp at hm, fun hw => by simp at hw⟩
  · exact ⟨fun hm => by simp at hm, fun hw => by simp at hw⟩
  · exact ⟨fun hm => by simp at hm, fun hw => by simp at hw⟩
  · exact ⟨fun hm => by simp at hm, fun hw => by simp at hw⟩
  · exact ⟨fun hm => by simp at hm, fun _ => ⟨d, rfl, hd0, hd1⟩⟩

theorem validate_output_within_limits_witness :
    moveWithinLimits [.str "MOVE", .num 150, .num (-10), .num 130, .num (-90),
      .num 1, .num 20000] ∧
    waitWithinLimits [.str "WAIT", .num 0] := by
  have h := validate_output_within_limits
    [.arr [.str "MOVE", .num 200, .num (-50), .num 999, .num (-100), .num 1, .num 99999],
     .arr [.str "WAIT", .num (-3)]]
    [[.str "MOVE", .num 150, .num (-10), .num 130, .num (-90), .num 1, .num 20000],
     [.str "WAIT", .num 0]] (by rfl)
  exact ⟨(h _ (by simp)).1 rfl, (h _ (by simp)).2 rfl⟩

/-- C2 (code bug): the claim says the validation step never raises, but
the validation loop runs outside the handler's `try` block and Python's
`int(None)` raises `TypeError`, so a `GRIP` tuple with a `None` state
field aborts the request instead of being omitted. -/
theorem validate_raises_on_non_numeric :
    validate [JVal.arr [.str "GRIP", .null]] = .error () := rfl

/-- C3 counterexample: an arity-2 `HOME` tuple is not discarded — the
branch `elif op in ("HOME","STOP","STATUS")` never checks the arity, so
a command derived from it (`["HOME"]`) does appear in the output. -/
theorem home_wrong_arity_not_discarded :
    validate [JVal.arr [.str "HOME", .num 1]] = .ok [[.str "HOME"]] ∧
    ([[JVal.str "HOME"]] : List (List JVal)) ≠ [] := ⟨rfl, by simp⟩

/-- C3 amended: for every command tuple whose tag is HOME, STOP or STATUS,
of any arity (including arity ≠ 1), the validator emits the one-element
command `[tag]`; wrong arity is normalized, not discarded. -/
theorem home_stop_status_any_arity (op : JVal) (rest : List JVal)
    (h : op = .str "HOME" ∨ op = .str "STOP" ∨ op = .str "STATUS") :
    validate [.arr (op :: rest)] = .ok [[op]] := by
  have hv : valArr op rest = .ok (some [op]) := by
    rcases h with rfl | rfl | rfl <;> simp [valArr, pyEqStr]
  simp [validate, valCmd_arr, hv, exbind_ok_left, expure_def]

theorem home_stop_status_any_arity_witness :
    validate [.arr [.str "STOP", .num 1, .num 2]] = .ok [[.str "STOP"]] :=
  home_stop_status_any_arity (.str "STOP") [.num 1, .num 2] (Or.inr (Or.inl rfl))

/-- C4 counterexample: a GRIP state of 0.5 is a nonzero number, yet the
code computes `1 if int(c[1]) else 0` and `int(0.5) = 0`, so the output
is `["GRIP", 0]`, not `["GRIP", 1]` as the claim states. -/
theorem grip_half_maps_to_zero :
    (0.5 : ℚ) ≠ 0 ∧
    validate [JVal.arr [.str "GRIP", .num 0.5]] = .ok [[.str "GRIP", .num 0]] := by
  have h : (0.5 : ℚ) = mkRat 1 2 := by
    rw [Rat.mkRat_eq_div]
    norm_num
  refine ⟨by norm_num, ?_⟩
  rw [h]
  rfl

/-- C4 amended: the GRIP state (and the MOVE gripper field) is first
truncated to an integer; the output state is 1 exactly when that integer
truncation is nonzero, and 0 otherwise — so e.g. a state of 0.5 maps
to 0. -/
theorem grip_move_state_truncation (q : ℚ) :
    validate [JVal.arr [.str "GRIP", .num q]]
      = .ok [[.str "GRIP", .num ((if pytrunc q = 0 then (0 : ℤ) else 1) : ℚ)]] ∧
    validate [JVal.arr [.str "MOVE", .num 0, .num 0, .num 0, .num 0, .num q, .num 2000]]
      = .ok [[.str "MOVE", .num 0, .num 0, .num 0, .num 0,
          .num ((if pytrunc q = 0 then (0 : ℤ) else 1) : ℚ), .num 2000]] := by
  constructor
  · simp [validate, valCmd_arr, valArr, pyEqStr, pyInt, exbind_ok_left, expure_def]
  · simp [validate, valCmd_arr, valArr, pyEqStr, pyFloat, pyInt, exbind_ok_left, expure_def,
      clip_of_mem (show (-150 : ℚ) ≤ 0 by norm_num) (show (0 : ℚ) ≤ 150 by norm_num),
      clip_of_mem (show (-10 : ℚ) ≤ 0 by norm_num) (show (0 : ℚ) ≤ 120 by norm_num),
      clip_of_mem (show (0 : ℚ) ≤ 0 by norm_num) (show (0 : ℚ) ≤ 130 by norm_num),
      clip_of_mem (show (-90 : ℚ) ≤ 0 by norm_num) (show (0 : ℚ) ≤ 90 by norm_num),
      show pytrunc 2000 = 2000 from rfl,
      show (max 1000 (min 20000 (2000 : ℤ)) : ℤ) = 2000 from rfl,
      show (max 1000 (min 20000 (2000 : ℚ)) : ℚ) = 2000 from rfl]

/-- C5: the brain endpoint uses the stored snapshot iff an entry exists
and its age is at most 60 seconds (age exactly 60 accepted, greater than
60 rejected); when the entry is absent or stale it returns `{"cmds": []}`
for every oracle outcome (the oracle is not consulted); when fresh, the
oracle outcome determines the response. -/
theorem brain_freshness_gate (store : Store) (rid : String) (now : ℚ) :
    (store rid = none → ∀ oracle, brain store rid now oracle = .ok ⟨[], none⟩) ∧
    (∀ e, store rid = some e → now - e.ts > 60 →
        ∀ oracle, brain store rid now oracle = .ok ⟨[], none⟩) ∧
    (∀ e, store rid = some e → now - e.ts ≤ 60 →
        (∀ msg, brain store rid now (.error msg) = .ok ⟨[], some msg⟩) ∧
        (∀ cmds out, validate cmds = .ok out →
            brain store rid now (.ok cmds) = .ok ⟨out, none⟩)) := by
  refine ⟨fun h oracle => ?_, fun e h hstale oracle => ?_,
    fun e h hfresh => ⟨fun msg => ?_, fun cmds out hv => ?_⟩⟩
  · simp [brain, brainM, readEntry, brainBody, h]
  · simp [brain, brainM, readEntry, brainBody, h, hstale]
  · simp [brain, brainM, readEntry, brainBody, h, not_lt.mpr hfresh]
  · simp [brain, brainM, readEntry, brainBody, h, not_lt.mpr hfresh, hv]

theorem brain_freshness_gate_witness :
    brain (fun k => if k = "rob" then some ⟨"img", 0, "image/png"⟩ else none) "rob" 60
        (.error "boom") = .ok ⟨[], some "boom"⟩ ∧
    brain (fun k => if k = "rob" then some ⟨"img", 0, "image/png"⟩ else none) "rob" 61
        (.error "boom") = .ok ⟨[], none⟩ ∧
    brain (fun k => if k = "rob" then some ⟨"img", 0, "image/png"⟩ else none) "nobody" 5
        (.error "boom") = .ok ⟨[], none⟩ :=
  ⟨((brain_freshness_gate _ "rob" 60).2.2 ⟨"img", 0, "image/png"⟩ (by simp)
      (by norm_num)).1 "boom",
    (brain_freshness_gate _ "rob" 61).2.1 ⟨"img", 0, "image/png"⟩ (by simp)
      (by norm_num) _,
    (brain_freshness_gate _ "nobody" 5).1 (by simp) _⟩

/-- C6 (code bug): the claim says the `cmds` field is always present in
the response, but when the oracle call succeeds and its plan contains a
`MOVE` tuple with a non-coercible angular field, `float(None)` raises
outside the `try` block and the handler returns no JSON body at all
(HTTP 500), modelled as `Except.error ()`. -/
theorem brain_raises_on_bad_plan :
    brain (fun k => if k = "r1" then some ⟨"img", 0, "image/jpeg"⟩ else none) "r1" 10
      (.ok [.arr [.str "MOVE", .null, .num 0, .num 0, .num 0, .num 0, .num 1000]])
      = .error () := by
  have hv : validate [JVal.arr [.str "MOVE", .null, .num 0, .num 0, .num 0, .num 0, .num 1000]]
      = .error () := rfl
  norm_num [brain, brainM, readEntry, brainBody, hv]

/-- C7: for every raw plan input on which validation completes, the
output is the order-preserving image of the per-command validator over
the input: each surviving command comes from exactly one input tuple
(`stepv`), and the relative order of survivors equals their relative
order in the raw plan, because `List.filterMap` keeps the input order. -/
theorem validate_order_preserving (cmds : List JVal) (out : List (List JVal))
    (h : validate cmds = .ok out) : out = cmds.filterMap stepv :=
  validate_ok_filterMap h

theorem validate_order_preserving_witness :
    [[JVal.str "MOVE", .num 150, .num 50, .num 60, .num 0, .num 1, .num 1000],
     [JVal.str "WAIT", .num 5000], [JVal.str "GRIP", .num 1]]
    = List.filterMap stepv
      [.arr [.str "MOVE", .num 200, .num 50, .num 60, .num 0, .num 1, .num 500],
       .arr [.str "WAIT", .num 99999], .arr [.str "FOO"], .arr [.str "GRIP", .num 5]] :=
  validate_order_preserving
    [.arr [.str "MOVE", .num 200, .num 50, .num 60, .num 0, .num 1, .num 500],
     .arr [.str "WAIT", .num 99999], .arr [.str "FOO"], .arr [.str "GRIP", .num 5]]
    [[JVal.str "MOVE", .num 150, .num 50, .num 60, .num 0, .num 1, .num 1000],
     [JVal.str "WAIT", .num 5000], [JVal.str "GRIP", .num 1]] (by rfl)

/-- C8: the validator is idempotent — feeding the validator's output back
through the validator, re-encoded as a raw plan (each command list
wrapped back into a JSON array), yields the identical command list. -/
theorem validate_idempotent (cmds : List JVal) (out : List (List JVal))
    (h : validate cmds = .ok out) :
    validate (out.map JVal.arr) = .ok out :=
  validate_reencode h

theorem validate_idempotent_witness :
    validate (([[JVal.str "WAIT", .num 123], [JVal.str "HOME"]] :
        List (List JVal)).map JVal.arr)
      = .ok [[JVal.str "WAIT", .num 123], [JVal.str "HOME"]] :=
  validate_idempotent [.arr [.str "WAIT", .num (mkRat 1239 10)], .arr [.str "HOME"]]
    [[JVal.str "WAIT", .num 123], [JVal.str "HOME"]] (by rfl)

/-- C9: every command in the validator's output is structurally
well-formed — its first element is one of the six recognized tags and
its length is exactly the declared arity for that tag, regardless of the
arity of the input tuple it was derived from. -/
theorem validate_output_wellformed (cmds : List JVal) (out : List (List JVal))
    (h : validate cmds = .ok out) (e : List JVal) (he : e ∈ out) :
    wellFormedCmd e := by
  obtain ⟨c, hc⟩ := mem_validate_ok h he
  rcases valCmd_sound hc with
    ⟨x0, x1, x2, x3, g, t, rfl, -⟩ | rfl | rfl | rfl | ⟨g, -, rfl⟩ | ⟨d, -, -, rfl⟩
  · exact Or.inl ⟨rfl, rfl⟩
  · exact Or.inr (Or.inr (Or.inr (Or.inl ⟨rfl, rfl⟩)))
  · exact Or.inr (Or.inr (Or.inr (Or.inr (Or.inl ⟨rfl, rfl⟩))))
  · exact Or.inr (Or.inr (Or.inr (Or.inr (Or.inr ⟨rfl, rfl⟩))))
  · exact Or.inr (Or.inl ⟨rfl, rfl⟩)
  · exact Or.inr (Or.inr (Or.inl ⟨rfl, rfl⟩))

theorem validate_output_wellformed_witness :
    wellFormedCmd [JVal.str "STATUS"] :=
  validate_output_wellformed [.arr [.str "STATUS", .num 7, .num 8]]
    [[JVal.str "STATUS"]] (by rfl) [JVal.str "STATUS"] (by simp)

/-- C10: the brain endpoint never modifies the snapshot store — its only
store operation is the read of `LATEST.get(robot_id)`, so the mapping
from robot ids to entries after the handler runs equals the one before,
at every robot id. -/
theorem brain_preserves_store (s : Store) (rid : String) (now : ℚ)
    (oracle : Except String (List JVal)) (k : String) :
    ((brainM rid now oracle s).2) k = s k := rfl

end DeskButler
